import Mathlib

/-
Verification of the crypto-prices repository (src/crypto_complete.py and
src/crypto_simple.py) against its natural-language specification.

Shallow embedding conventions:
- Numeric values (prices, amounts, ratios) are modelled as rationals `ℚ`.
  The JSON/string-to-float parsing layer is the external boundary; candle
  fields arrive already as numbers.
- A Python dict mapping symbol strings to amounts is modelled as an
  association list `Dict := List (String × ℚ)` with Python dict semantics:
  assignment overwrites the first matching key in place or appends at the
  end, deletion removes the matching key, lookup returns the first match.
- The file system seen by the program is a single slot: the contents of
  `wallet.json`, modelled as `Option Dict` (`none` = file absent).
- The HTTP layer is a collaborator: report functions are parameterised by
  oracles returning either a parsed response or a `FetchError` (covering
  network failure, non-2xx status, malformed JSON, missing fields).
- Python exceptions raised inside the fetch/compute path (IndexError on a
  short candle list, ValueError from `max()` on an empty sequence,
  ZeroDivisionError) are modelled as `FetchError` constructors; the report
  loops catch all of them, as the source catches `Exception`.
-/

set_option autoImplicit false

/-- A Python dict from symbol strings to amounts, as an association list. -/
abbrev Dict : Type := List (String × ℚ)

/-- Python `d.get(k)` / `k in d`: first value stored under key `k`, if any. -/
def dictGet (d : Dict) (k : String) : Option ℚ :=
  match d with
  | [] => none
  | (a, b) :: t => if a = k then some b else dictGet t k

/-- Python `d[k] = v`: overwrite the first occurrence of `k` in place,
or append `(k, v)` at the end when `k` is absent. -/
def dictSet (d : Dict) (k : String) (v : ℚ) : Dict :=
  match d with
  | [] => [(k, v)]
  | (a, b) :: t => if a = k then (k, v) :: t else (a, b) :: dictSet t k v

/-- Python `del d[k]`: drop the entries stored under key `k`. -/
def dictDel (d : Dict) (k : String) : Dict :=
  match d with
  | [] => []
  | (a, b) :: t => if a = k then dictDel t k else (a, b) :: dictDel t k

/-- The `Wallet` class of src/crypto_complete.py: its in-memory state is the
`self.data` mapping. The file path is fixed to the single modelled file
slot (`wallet.json`), so it is not carried in the structure. -/
structure Wallet where
  data : Dict
deriving DecidableEq

/-- `Wallet.__init__` / `Wallet._load`: read the JSON mapping from the file
if it exists, otherwise start empty. The disk is not written. -/
def Wallet.init (fs : Option Dict) : Wallet :=
  { data := fs.getD [] }

/-- `Wallet.save`: rewrite the whole file with the in-memory mapping. -/
def Wallet.save (w : Wallet) (_fs : Option Dict) : Option Dict :=
  some w.data

/-- `Wallet.update`: set the amount for a symbol, then save. Returns the new
in-memory wallet and the new file contents. -/
def Wallet.update (w : Wallet) (fs : Option Dict) (symbol : String) (amount : ℚ) :
    Wallet × Option Dict :=
  let w2 : Wallet := { data := dictSet w.data symbol amount }
  (w2, w2.save fs)

/-- Console messages emitted by `Wallet.clear`. -/
inductive WMsg where
  | clearedSymbol (s : String)
  | notFound (s : String)
  | clearedAll
deriving DecidableEq

/-- Python truthiness of the optional `symbol` argument of `Wallet.clear`:
`None` and the empty string are falsy, every other string is truthy. -/
def pyTruthy (symbol : Option String) : Bool :=
  match symbol with
  | none => false
  | some s => !(s = "")

/-- `Wallet.clear`: with a truthy symbol, delete that key and save when it is
present, or print a not-found message and leave everything unchanged when it
is absent; with `None` (or a falsy symbol) replace the mapping by the empty
dict and save. Returns (wallet, file contents, messages printed). -/
def Wallet.clear (w : Wallet) (fs : Option Dict) (symbol : Option String) :
    Wallet × Option Dict × List WMsg :=
  if pyTruthy symbol then
    let s := symbol.getD ""
    if (dictGet w.data s).isSome then
      let w2 : Wallet := { data := dictDel w.data s }
      (w2, w2.save fs, [WMsg.clearedSymbol s])
    else
      (w, fs, [WMsg.notFound s])
  else
    let w2 : Wallet := { data := [] }
    (w2, w2.save fs, [WMsg.clearedAll])

/-- `Wallet.get`: amount held for a symbol, `0` when absent. -/
def Wallet.get (w : Wallet) (symbol : String) : ℚ :=
  (dictGet w.data symbol).getD 0

/-- `Wallet.symbols`: the keys of the mapping, in insertion order. -/
def Wallet.symbols (w : Wallet) : List String :=
  w.data.map Prod.fst

/-- Error taxonomy of the spec: every failure inside a fetch/compute step
(network or non-2xx status, missing list index, empty result set for
`max()`, division by zero) surfaces as one caught exception. -/
inductive FetchError where
  | httpError
  | indexError
  | emptyData
  | divByZero
deriving DecidableEq

/-- Kline branch of `fetch_price_data` (src/crypto_complete.py lines 71-80),
applied to the parsed kline response: reads `data[0][1]` as yesterday's open
and `data[1][1]` as today's open, and returns
`(open_today, (open_today - open_yesterday) / open_yesterday)`.
Missing candles or fields raise IndexError; a zero yesterday open raises
ZeroDivisionError. -/
def fetch_price_data_kline (data : List (List ℚ)) : Except FetchError (ℚ × ℚ) :=
  match data[0]?, data[1]? with
  | some c0, some c1 =>
    match c0[1]?, c1[1]? with
    | some open_yesterday, some open_today =>
      if open_yesterday = 0 then Except.error FetchError.divByZero
      else Except.ok (open_today, (open_today - open_yesterday) / open_yesterday)
    | _, _ => Except.error FetchError.indexError
  | _, _ => Except.error FetchError.indexError

/-- `get_daily_open_price` of src/crypto_simple.py (lines 12-26), applied to
the parsed kline response: same candle indexing and change-ratio formula as
the kline branch of `fetch_price_data`. -/
def get_daily_open_price (data : List (List ℚ)) : Except FetchError (ℚ × ℚ) :=
  match data[0]?, data[1]? with
  | some c0, some c1 =>
    match c0[1]?, c1[1]? with
    | some yesterday_price, some today_price =>
      if yesterday_price = 0 then Except.error FetchError.divByZero
      else Except.ok (today_price, (today_price - yesterday_price) / yesterday_price)
    | _, _ => Except.error FetchError.indexError
  | _, _ => Except.error FetchError.indexError

/-- The generator `float(candle[2]) for candle in data`: the high field of
every candle, or `none` when some candle has no index 2 (IndexError). -/
def extractHighs (data : List (List ℚ)) : Option (List ℚ) :=
  match data with
  | [] => some []
  | candle :: rest =>
    match candle[2]?, extractHighs rest with
    | some h, some t => some (h :: t)
    | _, _ => none

/-- `fetch_all_time_high` (src/crypto_complete.py lines 88-103), applied to
the parsed monthly kline response: `max(float(candle[2]) for candle in data)`.
A candle without index 2 raises IndexError; an empty response makes `max`
raise ValueError (modelled as `emptyData`). -/
def fetch_all_time_high (data : List (List ℚ)) : Except FetchError ℚ :=
  match extractHighs data with
  | none => Except.error FetchError.indexError
  | some [] => Except.error FetchError.emptyData
  | some (h :: t) => Except.ok (t.foldl max h)

/-- The HTTP collaborator: each field is the outcome (parsed response or
fetch error) of one GET endpoint, keyed by the pair string used in the
request. `dailyKlines pair` is `klines?symbol=pair&interval=1d&limit=2`,
`monthlyKlines pair` is `klines?symbol=pair&interval=1M`, and
`ticker pair` is the parsed numeric price of `ticker/price?symbol=pair`. -/
structure Net where
  dailyKlines : String → Except FetchError (List (List ℚ))
  monthlyKlines : String → Except FetchError (List (List ℚ))
  ticker : String → Except FetchError ℚ

/-- One printed line of the current-prices report: either a data row
(symbol, today's open, current price, the Change (%) cell, the Wallet Value
cell) or the per-symbol error line. -/
inductive PriceRow where
  | row (symbol : String) (daily_open current_price percent_change wallet_value : ℚ)
  | errorRow (symbol : String) (e : FetchError)
deriving DecidableEq

/-- Python truthiness of a `Wallet` instance: the class defines neither
`__bool__` nor `__len__`, so every instance is truthy. -/
def walletTruthy (_w : Wallet) : Bool :=
  true

/-- Body of the `for symbol in symbols` loop of `print_prices`
(src/crypto_complete.py lines 174-192): fetch the daily kline data and the
current price, compute `percent_change = ((current_price - daily_open) /
daily_open) * 100` (the percent returned by the kline fetch is discarded),
and since the freshly constructed wallet object is truthy, set
`wallet_value = wallet.get(symbol) * current_price` and add it to the
running total. Any exception yields the error line instead. Returns the
printed row and the contribution to `total_value`. -/
def priceRowFor (net : Net) (w : Wallet) (unit symbol : String) : PriceRow × ℚ :=
  match (net.dailyKlines (symbol ++ unit)).bind fetch_price_data_kline,
        net.ticker (symbol ++ unit) with
  | Except.ok (daily_open, _), Except.ok current_price =>
    if daily_open = 0 then (PriceRow.errorRow symbol FetchError.divByZero, 0)
    else
      let percent_change := ((current_price - daily_open) / daily_open) * 100
      let wallet_value := w.get symbol * current_price
      (PriceRow.row symbol daily_open current_price percent_change wallet_value,
        wallet_value)
  | Except.error e, _ => (PriceRow.errorRow symbol e, 0)
  | Except.ok _, Except.error e => (PriceRow.errorRow symbol e, 0)

/-- Output of `print_prices`: the data/error rows in symbol order, the final
`total_value`, and whether the trailing Total Wallet Value line is printed. -/
structure PricesReport where
  rows : List PriceRow
  total_value : ℚ
  totalLine : Bool
deriving DecidableEq

/-- One iteration of the `print_prices` loop: append the printed row and
add the wallet value to the running `total_value`. -/
def pricesStep (net : Net) (w : Wallet) (unit : String)
    (acc : List PriceRow × ℚ) (symbol : String) : List PriceRow × ℚ :=
  (acc.1 ++ [(priceRowFor net w unit symbol).1],
    acc.2 + (priceRowFor net w unit symbol).2)

/-- `print_prices` (src/crypto_complete.py lines 145-197). The `wallet`
parameter of the source is accepted but immediately shadowed by
`wallet = Wallet('wallet.json')` (line 173), which loads from the file
slot `fs`; the loop then processes the symbols in order, and the trailing
total line is printed because `if wallet:` tests a truthy object. -/
def print_prices (net : Net) (fs : Option Dict) (symbols : List String)
    (unit : String) (wallet : Option Wallet) : PricesReport :=
  let w := Wallet.init fs
  let out := symbols.foldl (pricesStep net w unit) ([], 0)
  { rows := out.1, total_value := out.2, totalLine := walletTruthy w }

/-- One printed line of the all-time-highs report: either a data row
(symbol, ATH, current price, the Change from ATH (%) cell) or the
per-symbol error line. -/
inductive AthRow where
  | row (symbol : String) (ath current_price ath_change : ℚ)
  | errorRow (symbol : String) (e : FetchError)
deriving DecidableEq

/-- Body of the `for symbol in symbols` loop of `print_all_time_highs`
(src/crypto_complete.py lines 128-143): fetch the ATH (the monthly kline
request hardcodes the USDT pair) and the current price, and compute
`ath_change = ((current_price - ath) / ath) * 100`, already
percentage-scaled. Any exception yields the error line instead. -/
def athRowFor (net : Net) (unit symbol : String) : AthRow :=
  match (net.monthlyKlines (symbol ++ "USDT")).bind fetch_all_time_high,
        net.ticker (symbol ++ unit) with
  | Except.ok ath, Except.ok current_price =>
    if ath = 0 then AthRow.errorRow symbol FetchError.divByZero
    else AthRow.row symbol ath current_price (((current_price - ath) / ath) * 100)
  | Except.error e, _ => AthRow.errorRow symbol e
  | Except.ok _, Except.error e => AthRow.errorRow symbol e

/-- One iteration of the `print_all_time_highs` loop. -/
def athStep (net : Net) (unit : String) (acc : List AthRow) (symbol : String) :
    List AthRow :=
  acc ++ [athRowFor net unit symbol]

/-- `print_all_time_highs` (src/crypto_complete.py lines 105-143): one row
per symbol, in order. -/
def print_all_time_highs (net : Net) (symbols : List String) (unit : String) :
    List AthRow :=
  symbols.foldl (athStep net unit) []

/-- A mutating wallet operation, as dispatched by `main`. -/
inductive WOp where
  | update (symbol : String) (amount : ℚ)
  | clear (symbol : Option String)

/-- Apply one wallet operation to the (in-memory wallet, file contents)
pair, dropping console messages. -/
def Wallet.runOp (st : Wallet × Option Dict) (op : WOp) : Wallet × Option Dict :=
  match op with
  | WOp.update symbol amount => st.1.update st.2 symbol amount
  | WOp.clear symbol =>
    let r := st.1.clear st.2 symbol
    (r.1, r.2.1)

/-- Construct a wallet from the file (`Wallet('wallet.json')`) and apply a
sequence of operations. -/
def Wallet.runOps (fs : Option Dict) (ops : List WOp) : Wallet × Option Dict :=
  ops.foldl Wallet.runOp (Wallet.init fs, fs)

/-- The write-through invariant: the in-memory mapping equals the mapping
the on-disk document represents. An absent file represents the empty
mapping, exactly as `Wallet._load` reads it. -/
def inMemoryMatchesDisk (st : Wallet × Option Dict) : Prop :=
  st.1.data = st.2.getD []

theorem dictGet_dictSet_self (d : Dict) (k : String) (v : ℚ) :
    dictGet (dictSet d k v) k = some v := by
  induction d with
  | nil => simp [dictSet, dictGet]
  | cons hd t ih =>
    obtain ⟨a, b⟩ := hd
    by_cases hak : a = k
    · simp [dictSet, dictGet, hak]
    · simp [dictSet, dictGet, hak, ih]

theorem dictGet_dictDel_self (d : Dict) (k : String) :
    dictGet (dictDel d k) k = none := by
  induction d with
  | nil => simp [dictDel, dictGet]
  | cons hd t ih =>
    obtain ⟨a, b⟩ := hd
    by_cases hak : a = k
    · simp [dictDel, hak, ih]
    · simp [dictDel, dictGet, hak, ih]

theorem dictGet_dictDel_ne (d : Dict) (k k2 : String) (hne : k2 ≠ k) :
    dictGet (dictDel d k) k2 = dictGet d k2 := by
  induction d with
  | nil => simp [dictDel]
  | cons hd t ih =>
    obtain ⟨a, b⟩ := hd
    by_cases hak : a = k
    · subst hak
      simp [dictDel, dictGet, Ne.symm hne, ih]
    · simp [dictDel, dictGet, hak, ih]

/-- C10: `Wallet.get` is total: it returns the stored amount when the symbol
is present in the mapping and `0` when it is absent; being a total function
of the wallet state, it can never fail. -/
theorem wallet_get_total (w : Wallet) (symbol : String) :
    (∀ a : ℚ, dictGet w.data symbol = some a → w.get symbol = a) ∧
    (dictGet w.data symbol = none → w.get symbol = 0) := by
  constructor
  · intro a ha
    simp [Wallet.get, ha]
  · intro ha
    simp [Wallet.get, ha]

/-- C10 witness: on the wallet {BTC: 1/2}, `get` returns 1/2 for the present
symbol BTC and 0 for the absent symbol ETH. -/
theorem wallet_get_total_witness :
    (Wallet.mk [("BTC", 1/2)]).get "BTC" = 1/2 ∧
    (Wallet.mk [("BTC", 1/2)]).get "ETH" = 0 := by
  constructor
  · exact (wallet_get_total (Wallet.mk [("BTC", 1/2)]) "BTC").1 (1/2) (by simp [dictGet])
  · exact (wallet_get_total (Wallet.mk [("BTC", 1/2)]) "ETH").2 (by simp [dictGet])

/-- C8: round-trip persistence: after `Wallet.update(sym, amt)`, constructing
a new wallet from the written file yields `get(sym) = amt`; and saving the
wallet {BTC: 1/2, ETH: 2} then reloading from the same path yields an equal
mapping. -/
theorem wallet_round_trip :
    (∀ (w : Wallet) (fs : Option Dict) (symbol : String) (amount : ℚ),
      (Wallet.init (w.update fs symbol amount).2).get symbol = amount) ∧
    Wallet.init ((Wallet.mk [("BTC", 1/2), ("ETH", 2)]).save none) =
      Wallet.mk [("BTC", 1/2), ("ETH", 2)] := by
  constructor
  · intro w fs symbol amount
    simp [Wallet.update, Wallet.save, Wallet.init, Wallet.get,
      dictGet_dictSet_self]
  · rfl

theorem wallet_runOp_preserves (st : Wallet × Option Dict) (op : WOp)
    (h : inMemoryMatchesDisk st) : inMemoryMatchesDisk (Wallet.runOp st op) := by
  cases op with
  | update symbol amount =>
    simp [Wallet.runOp, Wallet.update, Wallet.save, inMemoryMatchesDisk]
  | clear symbol =>
    by_cases ht : pyTruthy symbol
    · by_cases hmem : (dictGet st.1.data (symbol.getD "")).isSome
      · simp [Wallet.runOp, Wallet.clear, ht, hmem, Wallet.save,
          inMemoryMatchesDisk]
      · simpa [Wallet.runOp, Wallet.clear, ht, hmem, inMemoryMatchesDisk]
          using h
    · simp [Wallet.runOp, Wallet.clear, ht, Wallet.save, inMemoryMatchesDisk]

/-- C4: write-through invariant: starting from `Wallet('wallet.json')` and
applying any sequence of mutating operations (update, clear with or without
a symbol), the in-memory mapping always equals the mapping represented by
the on-disk document; every mutating path saves before returning, so no
flush is ever pending. -/
theorem wallet_write_through_invariant (fs : Option Dict) (ops : List WOp) :
    inMemoryMatchesDisk (Wallet.runOps fs ops) := by
  have hstep : ∀ (st : Wallet × Option Dict), inMemoryMatchesDisk st →
      inMemoryMatchesDisk (ops.foldl Wallet.runOp st) := by
    induction ops with
    | nil => intro st h; exact h
    | cons op t ih =>
      intro st h
      exact ih (Wallet.runOp st op) (wallet_runOp_preserves st op h)
  refine hstep (Wallet.init fs, fs) ?_
  cases fs <;> simp [inMemoryMatchesDisk, Wallet.init]

theorem pricesStep_foldl (net : Net) (w : Wallet) (unit : String)
    (symbols : List String) :
    ∀ acc : List PriceRow × ℚ,
      symbols.foldl (pricesStep net w unit) acc =
        (acc.1 ++ symbols.map (fun s => (priceRowFor net w unit s).1),
          acc.2 + (symbols.map (fun s => (priceRowFor net w unit s).2)).sum) := by
  induction symbols with
  | nil => intro acc; simp
  | cons s t ih =>
    intro acc
    simp [pricesStep, ih, add_assoc]

theorem print_prices_rows (net : Net) (fs : Option Dict) (symbols : List String)
    (unit : String) (wallet : Option Wallet) :
    (print_prices net fs symbols unit wallet).rows =
      symbols.map (fun s => (priceRowFor net (Wallet.init fs) unit s).1) := by
  simp [print_prices, pricesStep_foldl]

theorem athStep_foldl (net : Net) (unit : String) (symbols : List String) :
    ∀ acc : List AthRow,
      symbols.foldl (athStep net unit) acc =
        acc ++ symbols.map (athRowFor net unit) := by
  induction symbols with
  | nil => intro acc; simp
  | cons s t ih =>
    intro acc
    simp [athStep, ih]

theorem print_all_time_highs_eq_map (net : Net) (symbols : List String)
    (unit : String) :
    print_all_time_highs net symbols unit = symbols.map (athRowFor net unit) := by
  simp [print_all_time_highs, athStep_foldl]

/-- C9: `Wallet.clear` with a (nonempty) symbol removes exactly that key and
leaves every other entry unchanged; `Wallet.clear` with no symbol empties
the mapping entirely; clearing a symbol that is not present is not an
error: it prints a not-found message and returns with wallet, file and
mapping all unchanged. -/
theorem wallet_clear_spec (w : Wallet) (fs : Option Dict) (symbol : String)
    (hs : symbol ≠ "") :
    dictGet (w.clear fs (some symbol)).1.data symbol = none ∧
    (∀ k, k ≠ symbol →
      dictGet (w.clear fs (some symbol)).1.data k = dictGet w.data k) ∧
    (w.clear fs none).1.data = [] ∧
    (dictGet w.data symbol = none →
      w.clear fs (some symbol) = (w, fs, [WMsg.notFound symbol])) := by
  have ht : pyTruthy (some symbol) = true := by simp [pyTruthy, hs]
  refine ⟨?_, ?_, ?_, ?_⟩
  · cases hn : dictGet w.data symbol with
    | none => simp [Wallet.clear, ht, hn]
    | some v => simp [Wallet.clear, ht, hn, dictGet_dictDel_self]
  · intro k hk
    cases hn : dictGet w.data symbol with
    | none => simp [Wallet.clear, ht, hn]
    | some v => simp [Wallet.clear, ht, hn, dictGet_dictDel_ne w.data symbol k hk]
  · simp [Wallet.clear, pyTruthy]
  · intro hn
    simp [Wallet.clear, ht, hn]

/-- C9 witness: on the wallet {BTC: 1, ETH: 2}, clearing ETH removes ETH
and keeps BTC, clearing with no symbol empties the mapping, and clearing
the absent DOGE leaves everything unchanged and reports not-found. -/
theorem wallet_clear_spec_witness :
    dictGet ((Wallet.mk [("BTC", 1), ("ETH", 2)]).clear
      (some [("BTC", 1), ("ETH", 2)]) (some "ETH")).1.data "ETH" = none ∧
    dictGet ((Wallet.mk [("BTC", 1), ("ETH", 2)]).clear
      (some [("BTC", 1), ("ETH", 2)]) (some "ETH")).1.data "BTC" =
      dictGet (Wallet.mk [("BTC", 1), ("ETH", 2)]).data "BTC" ∧
    ((Wallet.mk [("BTC", 1), ("ETH", 2)]).clear
      (some [("BTC", 1), ("ETH", 2)]) none).1.data = [] ∧
    (Wallet.mk [("BTC", 1), ("ETH", 2)]).clear
      (some [("BTC", 1), ("ETH", 2)]) (some "DOGE") =
      (Wallet.mk [("BTC", 1), ("ETH", 2)], some [("BTC", 1), ("ETH", 2)],
        [WMsg.notFound "DOGE"]) := by
  have h1 := wallet_clear_spec (Wallet.mk [("BTC", 1), ("ETH", 2)])
    (some [("BTC", 1), ("ETH", 2)]) "ETH" (by simp)
  have h2 := wallet_clear_spec (Wallet.mk [("BTC", 1), ("ETH", 2)])
    (some [("BTC", 1), ("ETH", 2)]) "DOGE" (by simp)
  exact ⟨h1.1, h1.2.1 "BTC" (by simp), h1.2.2.1, h2.2.2.2 (by simp [dictGet])⟩

/-- C2: on a kline response of exactly two candles sorted oldest-first, the
daily fetch returns today's open (`data[1][1]`) paired with the change
ratio `(today - yesterday) / yesterday` computed from the two opens, in
both src/crypto_complete.py and src/crypto_simple.py. -/
theorem fetch_daily_open_and_change (c0 c1 : List ℚ) (y t : ℚ)
    (h0 : c0[1]? = some y) (h1 : c1[1]? = some t) (hy : y ≠ 0) :
    fetch_price_data_kline [c0, c1] = Except.ok (t, (t - y) / y) ∧
    get_daily_open_price [c0, c1] = Except.ok (t, (t - y) / y) := by
  constructor
  · simp [fetch_price_data_kline, h0, h1, hy]
  · simp [get_daily_open_price, h0, h1, hy]

/-- C2 witness: candles with yesterday open 100 and today open 110 give
today's open 110 and change ratio 1/10 = 0.10. -/
theorem fetch_daily_open_and_change_witness :
    fetch_price_data_kline [[0, 100], [0, 110]] = Except.ok (110, 1/10) ∧
    get_daily_open_price [[0, 100], [0, 110]] = Except.ok (110, 1/10) ∧
    ((110 : ℚ) - 100) / 100 = 1/10 := by
  have hr : ((110 : ℚ) - 100) / 100 = 1/10 := by norm_num
  have h := fetch_daily_open_and_change [0, 100] [0, 110] 100 110 rfl rfl
    (by norm_num)
  refine ⟨?_, ?_, hr⟩
  · rw [← hr]; exact h.1
  · rw [← hr]; exact h.2

theorem foldl_max_le (t : List ℚ) (h : ℚ) :
    h ≤ t.foldl max h ∧ ∀ x ∈ t, x ≤ t.foldl max h := by
  induction t generalizing h with
  | nil => simp
  | cons a t2 ih =>
    have hha : h ≤ max h a := le_max_left h a
    have haa : a ≤ max h a := le_max_right h a
    refine ⟨hha.trans (ih (max h a)).1, ?_⟩
    intro x hx
    rcases List.mem_cons.mp hx with rfl | hx2
    · exact (le_max_right h x).trans (ih (max h x)).1
    · exact (ih (max h a)).2 x hx2

theorem foldl_max_mem (t : List ℚ) (h : ℚ) :
    t.foldl max h = h ∨ t.foldl max h ∈ t := by
  induction t generalizing h with
  | nil => simp
  | cons a t2 ih =>
    rcases ih (max h a) with heq | hmem
    · rw [List.foldl_cons, heq]
      rcases max_choice h a with hh | ha
      · exact Or.inl hh
      · exact Or.inr (by rw [ha]; exact List.mem_cons_self a t2)
    · exact Or.inr (List.mem_cons_of_mem a hmem)

theorem extractHighs_cons_some (a : List ℚ) (l : List (List ℚ)) (r : List ℚ)
    (h : extractHighs (a :: l) = some r) :
    ∃ b rs, a[2]? = some b ∧ extractHighs l = some rs ∧ r = b :: rs := by
  cases hfa : a[2]? with
  | none => simp [extractHighs, hfa] at h
  | some b =>
    cases hfl : extractHighs l with
    | none => simp [extractHighs, hfa, hfl] at h
    | some rs =>
      refine ⟨b, rs, rfl, rfl, ?_⟩
      simp [extractHighs, hfa, hfl] at h
      exact h.symm

/-- C6: on a non-empty monthly kline response whose candles all carry a high
field at index 2, `fetch_all_time_high` returns the maximum high across all
candles; on an empty response it fails (the `max()` of an empty sequence)
instead of returning a value. -/
theorem fetch_all_time_high_max_spec :
    (∀ (data : List (List ℚ)) (highs : List ℚ),
      extractHighs data = some highs → data ≠ [] →
      ∃ m, fetch_all_time_high data = Except.ok m ∧ m ∈ highs ∧
        ∀ x ∈ highs, x ≤ m) ∧
    fetch_all_time_high [] = Except.error FetchError.emptyData := by
  constructor
  · intro data highs hmap hne
    cases data with
    | nil => exact absurd rfl hne
    | cons d ds =>
      obtain ⟨b, rs, hb, hrs, hhighs⟩ := extractHighs_cons_some d ds highs hmap
      subst hhighs
      refine ⟨rs.foldl max b, ?_, ?_, ?_⟩
      · have hmap2 : extractHighs (d :: ds) = some (b :: rs) := by
          simp [extractHighs, hb, hrs]
        simp [fetch_all_time_high, hmap2]
      · rcases foldl_max_mem rs b with heq | hmem
        · rw [heq]; exact List.mem_cons_self b rs
        · exact List.mem_cons_of_mem b hmem
      · intro x hx
        rcases List.mem_cons.mp hx with rfl | hx2
        · exact (foldl_max_le rs x).1
        · exact (foldl_max_le rs b).2 x hx2
  · rfl

/-- C6 witness: on the two-candle monthly response with highs 69000 and
45000, the returned all-time high is 69000. -/
theorem fetch_all_time_high_max_spec_witness :
    fetch_all_time_high [[0, 0, 69000], [0, 0, 45000]] = Except.ok 69000 := by
  obtain ⟨m, hm, hmem, hle⟩ :=
    fetch_all_time_high_max_spec.1 [[0, 0, 69000], [0, 0, 45000]]
      [69000, 45000] rfl (by simp)
  have h1 : (69000 : ℚ) ≤ m := hle 69000 (by simp)
  have h2 : m = 69000 ∨ m = 45000 := by simpa using hmem
  rcases h2 with rfl | rfl
  · exact hm
  · norm_num at h1

/-- Concrete oracle for the ATH example: monthly candles with a single high
of 69000 and a ticker price of 45000. -/
def netC7 : Net :=
  { dailyKlines := fun _ => Except.ok []
    monthlyKlines := fun _ => Except.ok [[0, 0, 69000]]
    ticker := fun _ => Except.ok 45000 }

/-- C7: in the all-time-highs report, the Change from ATH (%) cell equals
`((current - ath) / ath) * 100`, already percentage-scaled; with ath 69000
and current 45000 it is exactly -800/23, within 1/100 of -34.78. -/
theorem ath_report_percent_change :
    (∀ (net : Net) (symbols : List String) (unit : String) (i : ℕ)
        (hi : i < symbols.length) (ath cur : ℚ),
      (net.monthlyKlines (symbols[i] ++ "USDT")).bind fetch_all_time_high =
          Except.ok ath →
      net.ticker (symbols[i] ++ unit) = Except.ok cur →
      ath ≠ 0 →
      (print_all_time_highs net symbols unit)[i]? =
        some (AthRow.row symbols[i] ath cur (((cur - ath) / ath) * 100))) ∧
    athRowFor netC7 "USDT" "BTC" = AthRow.row "BTC" 69000 45000 (-800/23) ∧
    -(1/100 : ℚ) < -800/23 - (-3478/100) ∧
    (-800/23 : ℚ) - (-3478/100) < 1/100 := by
  refine ⟨?_, ?_, by norm_num, by norm_num⟩
  · intro net symbols unit i hi ath cur hm ht hz
    rw [print_all_time_highs_eq_map, List.getElem?_map,
      List.getElem?_eq_getElem hi]
    simp [athRowFor, hm, ht, hz]
  · have : ((45000 : ℚ) - 69000) / 69000 * 100 = -800/23 := by norm_num
    simp [athRowFor, netC7, fetch_all_time_high, extractHighs, Except.bind,
      this]

/-- C7 witness: the one-symbol ATH report over the concrete oracle prints
the row with ath 69000, current 45000, and the scaled change. -/
theorem ath_report_percent_change_witness :
    (print_all_time_highs netC7 ["BTC"] "USDT")[0]? =
      some (AthRow.row "BTC" 69000 45000
        ((((45000 : ℚ) - 69000) / 69000) * 100)) := by
  exact ath_report_percent_change.1 netC7 ["BTC"] "USDT" 0 (by norm_num)
    69000 45000 rfl rfl (by norm_num)

/-- C5: the current-prices report emits exactly one line per symbol; a
symbol whose daily-kline fetch (or whose ticker fetch) fails yields a
single error line naming that symbol, and every symbol whose fetches
succeed yields its correct data row, independent of the other symbols. -/
theorem price_report_error_isolation (net : Net) (fs : Option Dict)
    (symbols : List String) (unit : String) (wopt : Option Wallet) :
    (print_prices net fs symbols unit wopt).rows.length = symbols.length ∧
    (∀ (i : ℕ) (hi : i < symbols.length) (e : FetchError),
      (net.dailyKlines (symbols[i] ++ unit)).bind fetch_price_data_kline =
          Except.error e →
      (print_prices net fs symbols unit wopt).rows[i]? =
        some (PriceRow.errorRow symbols[i] e)) ∧
    (∀ (i : ℕ) (hi : i < symbols.length) (x : ℚ × ℚ) (e : FetchError),
      (net.dailyKlines (symbols[i] ++ unit)).bind fetch_price_data_kline =
          Except.ok x →
      net.ticker (symbols[i] ++ unit) = Except.error e →
      (print_prices net fs symbols unit wopt).rows[i]? =
        some (PriceRow.errorRow symbols[i] e)) ∧
    (∀ (i : ℕ) (hi : i < symbols.length) (dopen ratio cur : ℚ),
      (net.dailyKlines (symbols[i] ++ unit)).bind fetch_price_data_kline =
          Except.ok (dopen, ratio) →
      net.ticker (symbols[i] ++ unit) = Except.ok cur →
      dopen ≠ 0 →
      (print_prices net fs symbols unit wopt).rows[i]? =
        some (PriceRow.row symbols[i] dopen cur (((cur - dopen) / dopen) * 100)
          ((Wallet.init fs).get symbols[i] * cur))) := by
  refine ⟨?_, ?_, ?_, ?_⟩
  · rw [print_prices_rows]; simp
  · intro i hi e hd
    rw [print_prices_rows, List.getElem?_map, List.getElem?_eq_getElem hi]
    simp [priceRowFor, hd]
  · intro i hi x e hd ht
    rw [print_prices_rows, List.getElem?_map, List.getElem?_eq_getElem hi]
    simp [priceRowFor, hd, ht]
  · intro i hi dopen ratio cur hd ht hz
    rw [print_prices_rows, List.getElem?_map, List.getElem?_eq_getElem hi]
    simp [priceRowFor, hd, ht, hz]

/-- Concrete oracle for the five-symbol report with one failing symbol:
the daily kline fetch fails for the DOT pair only. -/
def netC5 : Net :=
  { dailyKlines := fun pair =>
      if pair = "DOTUSDT" then Except.error FetchError.httpError
      else Except.ok [[0, 100], [0, 110]]
    monthlyKlines := fun _ => Except.ok []
    ticker := fun _ => Except.ok 220 }

/-- C5 witness: in the default 5-symbol report with DOT failing, the report
still has 5 lines, line 3 is the single error line for DOT, and line 0 is
the correct BTC row. -/
theorem price_report_error_isolation_witness :
    (print_prices netC5 none ["BTC", "ETH", "LINK", "DOT", "ADA"] "USDT"
      none).rows.length = 5 ∧
    (print_prices netC5 none ["BTC", "ETH", "LINK", "DOT", "ADA"] "USDT"
      none).rows[3]? = some (PriceRow.errorRow "DOT" FetchError.httpError) ∧
    (print_prices netC5 none ["BTC", "ETH", "LINK", "DOT", "ADA"] "USDT"
      none).rows[0]? = some (PriceRow.row "BTC" 110 220
        ((((220 : ℚ) - 110) / 110) * 100) ((Wallet.init none).get "BTC" * 220)) := by
  have h := price_report_error_isolation netC5 none
    ["BTC", "ETH", "LINK", "DOT", "ADA"] "USDT" none
  refine ⟨h.1, ?_, ?_⟩
  · refine h.2.1 3 (by norm_num) FetchError.httpError ?_
    have : netC5.dailyKlines ("DOT" ++ "USDT") =
        Except.error FetchError.httpError := by simp [netC5]
    rw [show (["BTC", "ETH", "LINK", "DOT", "ADA"] : List String)[3] = "DOT"
      from rfl, this]
    rfl
  · refine h.2.2.2 0 (by norm_num) 110 (((110 : ℚ) - 100) / 100) 220 ?_ rfl
      (by norm_num)
    have : netC5.dailyKlines ("BTC" ++ "USDT") =
        Except.ok [[0, 100], [0, 110]] := by simp [netC5]
    rw [show (["BTC", "ETH", "LINK", "DOT", "ADA"] : List String)[0] = "BTC"
      from rfl, this]
    simp [fetch_price_data_kline, Except.bind]

/-- Concrete oracle for the wallet-argument demonstration: daily opens 50
(yesterday) and 100 (today), ticker price 10. -/
def netC3 : Net :=
  { dailyKlines := fun _ => Except.ok [[0, 50], [0, 100]]
    monthlyKlines := fun _ => Except.ok []
    ticker := fun _ => Except.ok 10 }

/-- C3: `print_prices` ignores its `wallet` argument entirely: its output is
the same for any two arguments (including `None`, the default-report mode),
the trailing Total Wallet Value line is always printed, and the wallet
values come from the wallet freshly loaded from `wallet.json`: with the
file holding {BTC: 2} and a caller-supplied wallet holding {BTC: 99}, the
BTC row values the holding at 2 x 10 = 20, not 990. -/
theorem print_prices_ignores_wallet_argument :
    (∀ (net : Net) (fs : Option Dict) (symbols : List String) (unit : String)
        (w1 w2 : Option Wallet),
      print_prices net fs symbols unit w1 = print_prices net fs symbols unit w2) ∧
    (∀ (net : Net) (fs : Option Dict) (symbols : List String) (unit : String)
        (wopt : Option Wallet),
      (print_prices net fs symbols unit wopt).totalLine = true) ∧
    print_prices netC3 (some [("BTC", 2)]) ["BTC"] "USDT"
        (some (Wallet.mk [("BTC", 99)])) =
      { rows := [PriceRow.row "BTC" 100 10 (-90) 20],
        total_value := 20, totalLine := true } := by
  refine ⟨fun _ _ _ _ _ _ => rfl, fun _ _ _ _ _ => rfl, ?_⟩
  have h1 : ((10 : ℚ) - 100) / 100 * 100 = -90 := by norm_num
  have h2 : (2 : ℚ) * 10 = 20 := by norm_num
  simp [print_prices, pricesStep, priceRowFor, netC3, fetch_price_data_kline,
    Except.bind, Wallet.init, Wallet.get, dictGet, walletTruthy, h1, h2]

/-- Concrete oracle refuting the claim that the printed Change (%) equals
100 times the fetched daily change ratio: daily opens 100 and 110 (so the
fetched ratio is 1/10), current price 110. -/
def netC1 : Net :=
  { dailyKlines := fun _ => Except.ok [[0, 100], [0, 110]]
    monthlyKlines := fun _ => Except.ok []
    ticker := fun _ => Except.ok 110 }

/-- C1 counterexample: with the daily fetch returning change ratio 1/10 and
the ticker equal to today's open, the Change (%) cell printed by
`print_prices` is 0, not 100 x 1/10 = 10: the printed value is not the
fetched daily ratio scaled at print time. -/
theorem print_prices_change_scaled_ratio_cex :
    (netC1.dailyKlines "BTCUSDT").bind fetch_price_data_kline =
      Except.ok (110, 1/10) ∧
    (print_prices netC1 none ["BTC"] "USDT" none).rows =
      [PriceRow.row "BTC" 110 110 0 0] ∧
    (0 : ℚ) ≠ 100 * (1/10) := by
  refine ⟨?_, ?_, by norm_num⟩
  · have h1 : ((110 : ℚ) - 100) / 100 = 1/10 := by norm_num
    simp [netC1, fetch_price_data_kline, Except.bind, h1]
  · have h2 : ((110 : ℚ) - 110) / 110 * 100 = 0 := by norm_num
    simp [print_prices, pricesStep, priceRowFor, netC1, fetch_price_data_kline,
      Except.bind, Wallet.init, Wallet.get, dictGet, h2]

/-- C1 amended: the Change (%) cell of each successful row of the
current-prices report equals `100 * (current_price - daily_open) /
daily_open`, recomputed from the ticker price and today's open;
the change ratio returned by the daily kline fetch (`ratio` below)
is discarded and never printed. -/
theorem print_prices_change_from_current_and_open (net : Net)
    (fs : Option Dict) (symbols : List String) (unit : String)
    (wopt : Option Wallet) (i : ℕ) (hi : i < symbols.length)
    (dopen ratio cur : ℚ)
    (hd : (net.dailyKlines (symbols[i] ++ unit)).bind fetch_price_data_kline =
      Except.ok (dopen, ratio))
    (ht : net.ticker (symbols[i] ++ unit) = Except.ok cur)
    (hz : dopen ≠ 0) :
    (print_prices net fs symbols unit wopt).rows[i]? =
      some (PriceRow.row symbols[i] dopen cur (((cur - dopen) / dopen) * 100)
        ((Wallet.init fs).get symbols[i] * cur)) := by
  rw [print_prices_rows, List.getElem?_map, List.getElem?_eq_getElem hi]
  simp [priceRowFor, hd, ht, hz]

/-- C1 amended witness: over the counterexample oracle, the BTC row shows
the change recomputed from current price 110 and open 110. -/
theorem print_prices_change_from_current_and_open_witness :
    (print_prices netC1 none ["BTC"] "USDT" none).rows[0]? =
      some (PriceRow.row "BTC" 110 110 ((((110 : ℚ) - 110) / 110) * 100)
        ((Wallet.init none).get "BTC" * 110)) := by
  refine print_prices_change_from_current_and_open netC1 none ["BTC"] "USDT"
    none 0 (by norm_num) 110 (((110 : ℚ) - 100) / 100) 110 ?_ rfl (by norm_num)
  rfl
